import Mathlib

/-!
Verification development for the Automations repository.

The definitions below are shallow embeddings of the pagination, retry,
fan-out and counting logic found in the Python scripts of the repository.
Network effects are represented by explicit fetch functions passed as
arguments, unbounded while-loops carry a fuel parameter, and exceptions
become explicit result constructors. Each theorem settles one stated
property of the scripts.
-/

/-- A page as returned by the Confluence v2 list endpoints: an ordered list
of results plus an optional next cursor (the links next URL). A cursor of
none means the collection is exhausted. -/
structure PageV2 (kappa : Type) (alpha : Type) where
  results : List alpha
  next : Option kappa

/-- Embeds iter_pages_v2 from src/confluence-pages.py lines 216 to 232: a
while loop that fetches the current url, yields every result of the page in
order, then follows the links next cursor, stopping only when that cursor is
absent. The loop keeps no history of cursors already followed. Fuel bounds
the number of iterations so that the embedding is total; the Bool component
is true exactly when the loop terminated normally, that is when the cursor
became none before the fuel ran out. The middle component records every
cursor actually fetched, in order. -/
def iter_pages_v2 {kappa alpha : Type} (fetch : kappa → PageV2 kappa alpha) :
    Nat → Option kappa → List alpha × List kappa × Bool
  | _, none => ([], [], true)
  | 0, some _ => ([], [], false)
  | n + 1, some url =>
    let pg := fetch url
    let rest := iter_pages_v2 fetch n pg.next
    (pg.results ++ rest.1, url :: rest.2.1, rest.2.2)

/-- A well behaved paginated source: cursor i designates page i of the list,
and the next cursor points at i + 1 while further pages remain and is absent
on the last page. This models a finite sequence of pages whose next cursor
is eventually null. -/
def pagesFetch {alpha : Type} (pages : List (List alpha)) : Nat → PageV2 Nat alpha :=
  fun i => ⟨pages.getD i [], if i + 1 < pages.length then some (i + 1) else none⟩

theorem iter_pages_v2_succ {kappa alpha : Type} (fetch : kappa → PageV2 kappa alpha)
    (n : Nat) (c : kappa) :
    iter_pages_v2 fetch (n + 1) (some c) =
      ((fetch c).results ++ (iter_pages_v2 fetch n (fetch c).next).1,
       c :: (iter_pages_v2 fetch n (fetch c).next).2.1,
       (iter_pages_v2 fetch n (fetch c).next).2.2) := rfl

theorem iter_pages_v2_none {kappa alpha : Type} (fetch : kappa → PageV2 kappa alpha)
    (n : Nat) : iter_pages_v2 fetch n none = ([], [], true) := by
  cases n <;> rfl

theorem pagesFetch_next_none {alpha : Type} (pages : List (List alpha)) (i : Nat)
    (h : ¬ i + 1 < pages.length) : (pagesFetch pages i).next = none := by
  simp [pagesFetch, h]

theorem pagesFetch_next_some {alpha : Type} (pages : List (List alpha)) (i : Nat)
    (h : i + 1 < pages.length) : (pagesFetch pages i).next = some (i + 1) := by
  simp [pagesFetch, h]

theorem pagesFetch_results_in {alpha : Type} (pages : List (List alpha)) (i : Nat)
    (h : i < pages.length) : (pagesFetch pages i).results = pages[i] := by
  simp [pagesFetch, List.getElem?_eq_getElem h]

theorem pagesFetch_results_out {alpha : Type} (pages : List (List alpha)) (i : Nat)
    (h : pages.length ≤ i) : (pagesFetch pages i).results = [] := by
  simp [pagesFetch, List.getElem?_eq_none h]

theorem iter_pages_v2_pagesFetch {alpha : Type} (pages : List (List alpha)) :
    ∀ (fuel i : Nat), pages.length ≤ i + fuel →
      iter_pages_v2 (pagesFetch pages) (fuel + 1) (some i) =
        ((pages.drop i).flatten, List.range' i (max (pages.length - i) 1), true) := by
  intro fuel
  induction fuel with
  | zero =>
    intro i hle
    simp only [Nat.add_zero] at hle
    have hlt : ¬ i + 1 < pages.length := by omega
    have hcount : max (pages.length - i) 1 = 1 := by omega
    rw [iter_pages_v2_succ, pagesFetch_next_none pages i hlt,
      pagesFetch_results_out pages i hle, iter_pages_v2_none,
      List.drop_eq_nil_of_le hle, hcount]
    simp
  | succ fuel ih =>
    intro i hle
    by_cases hlt : i + 1 < pages.length
    · have hi : i < pages.length := by omega
      have hrec := ih (i + 1) (by omega)
      have hcount : max (pages.length - i) 1 = (max (pages.length - (i + 1)) 1) + 1 := by
        omega
      rw [iter_pages_v2_succ, pagesFetch_next_some pages i hlt,
        pagesFetch_results_in pages i hi, hrec, List.drop_eq_getElem_cons hi,
        List.flatten_cons, hcount, List.range'_succ]
    · -- the next cursor is none: the loop stops after this page
      have hcount : max (pages.length - i) 1 = 1 := by omega
      by_cases hi : i < pages.length
      · rw [iter_pages_v2_succ, pagesFetch_next_none pages i hlt,
          pagesFetch_results_in pages i hi, iter_pages_v2_none,
          List.drop_eq_getElem_cons hi, List.drop_eq_nil_of_le (by omega : pages.length ≤ i + 1),
          hcount]
        simp
      · have hge : pages.length ≤ i := by omega
        rw [iter_pages_v2_succ, pagesFetch_next_none pages i hlt,
          pagesFetch_results_out pages i hge, iter_pages_v2_none,
          List.drop_eq_nil_of_le hge, hcount]
        simp

/-- A fake fetch whose next cursor always equals the cursor just consumed:
every page is empty and points back at itself. -/
def loopFetch : Nat → PageV2 Nat Nat := fun c => ⟨[], some c⟩

/-- Outcome of one GET of the zendesk incremental tickets endpoint: either a
decoded body, or a requests exception. -/
inductive ZFetch : Type where
  | ok (tickets : List Nat) (end_of_stream : Bool) (next_page : Option String)
  | reqErr
deriving DecidableEq

/-- Embeds the ticket fetch while loop of src/zendesk.py lines 29 to 49. On a
request exception the script sleeps and retries the same url without any
bound; on success it extends the accumulator, stops when end_of_stream is
set, and otherwise follows next_page. The fetch function is indexed by a
global attempt counter so that a fake server can fail repeatedly. The Bool
component is true exactly when the loop terminated normally. -/
def zendesk_fetch_loop (fetch : Nat → String → ZFetch) :
    Nat → Nat → Option String → List Nat → List Nat × Bool
  | _, _, none, acc => (acc, true)
  | 0, _, some _, acc => (acc, false)
  | n + 1, k, some url, acc =>
    match fetch k url with
    | .reqErr => zendesk_fetch_loop fetch n (k + 1) (some url) acc
    | .ok ts eos next =>
      if eos then (acc ++ ts, true)
      else zendesk_fetch_loop fetch n (k + 1) next (acc ++ ts)

/-- One page record as yielded by iter_pages_v2 in src/confluence-pages.py
lines 223 to 229: the id, title, createdAt and spaceId fields of a v2 page. -/
structure PageItem where
  id : String
  title : String
  created_at : String
  space_id : String
deriving DecidableEq

/-- One record of the page index built by build_page_index in
src/confluence-pages.py lines 276 to 282. -/
structure IndexRow where
  id : String
  title : String
  space_key : String
  space_name : String
  created_at : String
deriving DecidableEq

/-- The record appended for one yielded page, as in src/confluence-pages.py
lines 276 to 282. -/
def to_index_row (sk sname : String) (pg : PageItem) : IndexRow :=
  ⟨pg.id, pg.title, sk, sname, pg.created_at⟩

/-- Embeds the inner per-space loop of build_page_index in
src/confluence-pages.py lines 271 to 284: each yielded page whose id is
empty or already in seen_ids is skipped, every other page is appended to the
index and its id recorded. -/
def space_loop (sk sname : String) :
    List String → List IndexRow → List PageItem → List String × List IndexRow
  | seen, acc, [] => (seen, acc)
  | seen, acc, pg :: rest =>
    if pg.id = "" ∨ pg.id ∈ seen then space_loop sk sname seen acc rest
    else space_loop sk sname (pg.id :: seen) (acc ++ [to_index_row sk sname pg]) rest

/-- Embeds build_page_index from src/confluence-pages.py lines 234 to 287,
with the space enumeration already done: each space contributes its key, its
name and the stream of pages yielded for it by iter_pages_v2, and the
seen_ids set together with the output list is threaded through all spaces. -/
def build_page_index (seen : List String) (acc : List IndexRow) :
    List (String × String × List PageItem) → List IndexRow
  | [] => acc
  | (sk, sname, items) :: rest =>
    build_page_index (space_loop sk sname seen acc items).1
      (space_loop sk sname seen acc items).2 rest

/-- The same dedup loop flattened to a single list of candidate rows; used to
relate build_page_index to its specification. -/
def dedup_loop : List String → List IndexRow → List IndexRow → List String × List IndexRow
  | seen, acc, [] => (seen, acc)
  | seen, acc, r :: rest =>
    if r.id = "" ∨ r.id ∈ seen then dedup_loop seen acc rest
    else dedup_loop (r.id :: seen) (acc ++ [r]) rest

/-- Modelled from the spec: the deduplicated union of the candidate rows in
first seen order, keeping each row whose id has not appeared before and
dropping later occurrences of the same id. Unlike the code it does not drop
rows with an empty id. -/
def spec_first_seen (seen : List String) : List IndexRow → List IndexRow
  | [] => []
  | r :: rest =>
    if r.id ∈ seen then spec_first_seen seen rest
    else r :: spec_first_seen (r.id :: seen) rest

/-- All candidate rows of a list of spaces, in the order the source visits
them. -/
def rows_of (spaces : List (String × String × List PageItem)) : List IndexRow :=
  (spaces.map (fun s => s.2.2.map (to_index_row s.1 s.2.1))).flatten

theorem space_loop_eq_dedup_loop (sk sname : String) :
    ∀ (items : List PageItem) (seen : List String) (acc : List IndexRow),
      space_loop sk sname seen acc items =
        dedup_loop seen acc (items.map (to_index_row sk sname)) := by
  intro items
  induction items with
  | nil => intro seen acc; rfl
  | cons pg rest ih =>
    intro seen acc
    by_cases h : pg.id = "" ∨ pg.id ∈ seen
    · simp only [space_loop, dedup_loop, List.map_cons, to_index_row, h, if_pos]
      exact ih seen acc
    · simp only [space_loop, dedup_loop, List.map_cons, to_index_row, h, if_neg,
        not_false_iff]
      exact ih (pg.id :: seen) (acc ++ [to_index_row sk sname pg])

theorem dedup_loop_append :
    ∀ (xs ys : List IndexRow) (seen : List String) (acc : List IndexRow),
      dedup_loop seen acc (xs ++ ys) =
        dedup_loop (dedup_loop seen acc xs).1 (dedup_loop seen acc xs).2 ys := by
  intro xs
  induction xs with
  | nil => intro ys seen acc; rfl
  | cons r rest ih =>
    intro ys seen acc
    by_cases h : r.id = "" ∨ r.id ∈ seen
    · simp only [List.cons_append, dedup_loop, h, if_pos]
      exact ih ys seen acc
    · simp only [List.cons_append, dedup_loop, h, if_neg, not_false_iff]
      exact ih ys (r.id :: seen) (acc ++ [r])

theorem build_page_index_eq_dedup_loop :
    ∀ (spaces : List (String × String × List PageItem)) (seen : List String)
      (acc : List IndexRow),
      build_page_index seen acc spaces = (dedup_loop seen acc (rows_of spaces)).2 := by
  intro spaces
  induction spaces with
  | nil => intro seen acc; rfl
  | cons s rest ih =>
    intro seen acc
    obtain ⟨sk, sname, items⟩ := s
    simp only [build_page_index, rows_of, List.map_cons, List.flatten_cons]
    rw [dedup_loop_append, ih, space_loop_eq_dedup_loop]
    rfl

theorem dedup_loop_cons_skip (seen : List String) (acc : List IndexRow)
    (r : IndexRow) (rest : List IndexRow) (h : r.id = "" ∨ r.id ∈ seen) :
    dedup_loop seen acc (r :: rest) = dedup_loop seen acc rest := by
  simp only [dedup_loop, h, if_pos]

theorem dedup_loop_cons_keep (seen : List String) (acc : List IndexRow)
    (r : IndexRow) (rest : List IndexRow) (h : ¬ (r.id = "" ∨ r.id ∈ seen)) :
    dedup_loop seen acc (r :: rest) = dedup_loop (r.id :: seen) (acc ++ [r]) rest := by
  simp only [dedup_loop, h, if_neg, not_false_iff]

theorem spec_first_seen_cons_skip (seen : List String) (r : IndexRow)
    (rest : List IndexRow) (h : r.id ∈ seen) :
    spec_first_seen seen (r :: rest) = spec_first_seen seen rest := by
  simp only [spec_first_seen, h, if_pos]

theorem spec_first_seen_cons_keep (seen : List String) (r : IndexRow)
    (rest : List IndexRow) (h : ¬ r.id ∈ seen) :
    spec_first_seen seen (r :: rest) = r :: spec_first_seen (r.id :: seen) rest := by
  simp only [spec_first_seen, h, if_neg, not_false_iff]

theorem dedup_loop_spec :
    ∀ (rows : List IndexRow) (seen : List String) (acc : List IndexRow),
      (dedup_loop seen acc rows).2 =
        acc ++ spec_first_seen seen (rows.filter (fun r => !(r.id == ""))) := by
  intro rows
  induction rows with
  | nil =>
    intro seen acc
    simp only [List.filter_nil, spec_first_seen, List.append_nil]
    rfl
  | cons r rest ih =>
    intro seen acc
    rw [List.filter_cons]
    by_cases hid : r.id = ""
    · have hb : (!(r.id == "")) = false := by simp [hid]
      rw [hb, if_neg (by simp), dedup_loop_cons_skip seen acc r rest (Or.inl hid)]
      exact ih seen acc
    · have hb : (!(r.id == "")) = true := by simp [hid]
      rw [hb, if_pos rfl]
      by_cases hseen : r.id ∈ seen
      · rw [dedup_loop_cons_skip seen acc r rest (Or.inr hseen),
          spec_first_seen_cons_skip seen r _ hseen]
        exact ih seen acc
      · have hcond : ¬ (r.id = "" ∨ r.id ∈ seen) := by
          intro h; cases h with
          | inl h => exact hid h
          | inr h => exact hseen h
        rw [dedup_loop_cons_keep seen acc r rest hcond,
          spec_first_seen_cons_keep seen r _ hseen,
          ih (r.id :: seen) (acc ++ [r])]
        simp

/-- Outcome of one HTTP GET attempt as seen by the retry helpers: a response
with a status code and an optional integer Retry-After header, or a network
level exception (read timeout, connect timeout, connection error). -/
inductive FetchOutcome : Type where
  | resp (status : Nat) (retryAfter : Option Nat)
  | netErr (msg : String)
deriving DecidableEq

/-- Result of safe_get from src/confluence-pages.py lines 87 to 108: a
response returned from attempt i with its status, an HTTPError raised by
raise_for_status on a client error, the last stored network exception
re-raised after the attempt budget is spent, or the final generic HTTPError
when every attempt was consumed by 429 or 5xx responses. -/
inductive SafeGetResult : Type where
  | ok (attempt status : Nat)
  | httpError (status : Nat)
  | exhaustedNet (msg : String)
  | exhaustedHTTP
deriving DecidableEq

/-- Embeds the attempt loop of safe_get from src/confluence-pages.py lines
87 to 108. The loop runs for i in 1..attempts: a 429 sleeps the maximum of
the Retry-After header (default 2) and 2 and retries, a 5xx sleeps a backoff
and retries, a 4xx raises at once, any other status is returned, and a
network exception is stored and retried. When the budget is spent the stored
exception is re-raised, or a generic HTTPError is raised when there is none.
The list accumulates the waits honored for 429 responses. -/
def safe_get_loop (fetch : Nat → FetchOutcome) :
    Nat → Nat → Option String → List Nat → SafeGetResult × List Nat
  | 0, _, lastExc, waits =>
    match lastExc with
    | some e => (.exhaustedNet e, waits)
    | none => (.exhaustedHTTP, waits)
  | n + 1, i, lastExc, waits =>
    match fetch i with
    | .resp s ra =>
      if s = 429 then safe_get_loop fetch n (i + 1) lastExc (waits ++ [max (ra.getD 2) 2])
      else if 500 ≤ s then safe_get_loop fetch n (i + 1) lastExc waits
      else if 400 ≤ s then (.httpError s, waits)
      else (.ok i s, waits)
    | .netErr e => safe_get_loop fetch n (i + 1) (some e) waits

/-- safe_get with its attempt budget, starting at attempt 1 with no stored
exception, as the source does. -/
def safe_get (fetch : Nat → FetchOutcome) (attempts : Nat) : SafeGetResult × List Nat :=
  safe_get_loop fetch attempts 1 none []

/-- Transient outcomes in the sense of the spec: HTTP 429, HTTP 5xx, or a
network level exception. -/
def transient : FetchOutcome → Bool
  | .resp s _ => decide (s = 429) || decide (500 ≤ s)
  | .netErr _ => true

/-- Results that mean the retry budget was spent on transient failures. -/
def exhausted : SafeGetResult → Bool
  | .exhaustedNet _ => true
  | .exhaustedHTTP => true
  | _ => false

/-- Result of the get helper of src/jira-audit.py lines 43 to 63: a decoded
body, an HTTPError raised by raise_for_status, or a propagated exception
(the helper catches nothing else). none means the recursion was still
running when the fuel ran out. -/
inductive JiraGetResult : Type where
  | ok (status : Nat)
  | httpError (status : Nat)
  | raised (msg : String)
deriving DecidableEq

/-- Embeds get from src/jira-audit.py lines 43 to 63. On a 429 the helper
sleeps the Retry-After header (default 5) and calls itself again with no
retry counter; on any other status at or above 400 raise_for_status raises;
network exceptions are not caught and propagate; otherwise the body is
returned. The fetch function is indexed by the attempt number and fuel
bounds the recursion depth; the second component counts the GET requests
actually issued. -/
def jira_get (fetch : Nat → FetchOutcome) : Nat → Nat → Option JiraGetResult × Nat
  | 0, _ => (none, 0)
  | n + 1, k =>
    match fetch k with
    | .resp s _ =>
      if s = 429 then
        ((jira_get fetch n (k + 1)).1, (jira_get fetch n (k + 1)).2 + 1)
      else if 400 ≤ s then (some (.httpError s), 1)
      else (some (.ok s), 1)
    | .netErr e => (some (.raised e), 1)

/-- A repository record as accumulated by get_inactive_repos in
src/List-GH-Repos.py lines 25 to 45. -/
structure Repo where
  name : String
  updated_at : String
deriving DecidableEq

/-- Lexicographic code point comparison of character lists, the semantics of
the Python less-than operator on the involved ISO timestamp strings. -/
def charListLt : List Char → List Char → Bool
  | _, [] => false
  | [], _ :: _ => true
  | a :: as, b :: bs =>
    if a.toNat < b.toNat then true
    else if b.toNat < a.toNat then false
    else charListLt as bs

/-- Embeds get_inactive_repos from src/List-GH-Repos.py lines 25 to 45. The
fetch function maps a page number to the response status code and the
decoded body. The loop breaks as soon as the status differs from 200 or the
body is empty, returning whatever was accumulated so far with no error
indication of any kind; otherwise it appends the repositories older than
the cutoff and moves to the next page. The second component counts the
requests issued. -/
def get_inactive_repos (fetch : Nat → Nat × List Repo) (cutoff : String) :
    Nat → Nat → List Repo → List Repo × Nat
  | 0, _, acc => (acc, 0)
  | n + 1, page, acc =>
    let r := fetch page
    if r.1 ≠ 200 ∨ r.2 = [] then (acc, 1)
    else
      let acc2 := acc ++ r.2.filter (fun rp => charListLt rp.updated_at.data cutoff.data)
      ((get_inactive_repos fetch cutoff n (page + 1) acc2).1,
       (get_inactive_repos fetch cutoff n (page + 1) acc2).2 + 1)

/-- Embeds fetch_screen_tabs from src/jira-customfields.py lines 70 to 81.
The argument models the outcome of get_json for the tabs endpoint: a decoded
tab list, or an HTTPError carrying its status code. A 400 is mapped to an
empty tab list by design; every other error is re-raised. -/
def fetch_screen_tabs (resp : Except Nat (List Nat)) : Except Nat (List Nat) :=
  match resp with
  | .ok tabs => .ok tabs
  | .error st => if st = 400 then .ok [] else .error st

/-- A page of a Jira PageBean endpoint: a values list and the optional
isLast flag (data.get with default True when the key is absent). -/
structure PageBean (alpha : Type) where
  values : List alpha
  isLast : Option Bool

/-- Embeds the pagination loop of fetch_all_screens from
src/jira-customfields.py lines 52 to 68: fetch at the current startAt,
extend the accumulator, stop when isLast (defaulting to true) is set or the
values list is empty, else advance startAt by the number of values
received. The second component counts the requests issued. -/
def fetch_all_screens {alpha : Type} (fetch : Nat → PageBean alpha) :
    Nat → Nat → List alpha → List alpha × Nat
  | 0, _, acc => (acc, 0)
  | n + 1, startAt, acc =>
    let d := fetch startAt
    if d.isLast.getD true || d.values.isEmpty then (acc ++ d.values, 1)
    else
      ((fetch_all_screens fetch n (startAt + d.values.length) (acc ++ d.values)).1,
       (fetch_all_screens fetch n (startAt + d.values.length) (acc ++ d.values)).2 + 1)

/-- Embeds the pagination loop of fetch_field_contexts from
src/jira-customfields.py lines 119 to 135, which is the same loop as
fetch_all_screens applied to the contexts endpoint. -/
def fetch_field_contexts {alpha : Type} (fetch : Nat → PageBean alpha) :
    Nat → Nat → List alpha → List alpha × Nat :=
  fetch_all_screens fetch

/-- Embeds the cap computation of main in src/confluence-pages.py line 352:
cap is MAX_PAGES when positive, else the total number of enumerated pages. -/
def capOf (maxPages total : Nat) : Nat := if 0 < maxPages then maxPages else total

/-- Embeds main of src/confluence-pages.py lines 339 to 395 for one space
with FAST_EXIT_ON_FIND disabled (its default): the whole page index is
enumerated first with iter_pages_v2 and build_page_index, and only then the
cap derived from MAX_PAGES is applied, so that the processed pages are the
first cap entries of the index. The first component is the list of index
entries processed; the second counts the list requests issued during the
enumeration, which happens before MAX_PAGES is ever consulted. -/
def main_capped (maxPages : Nat) (pages : List (List PageItem)) :
    List IndexRow × Nat :=
  let run := iter_pages_v2 (pagesFetch pages) (pages.length + 1) (some 0)
  let idx := build_page_index [] [] [("S", "Space", run.1)]
  (idx.take (capOf maxPages idx.length), run.2.1.length)

/-- One project row as consumed by collect_last_activity_by_project in
src/jira-audit.py lines 144 to 172: its key and archived flag. -/
structure Project where
  key : String
  archived : Bool
deriving DecidableEq

/-- One row of project_last_activity.csv as written by
collect_last_activity_by_project. -/
structure ActivityRow where
  projectKey : String
  lastIssueUpdated : String
  note : String
deriving DecidableEq

/-- The outcome recorded for a single project by
collect_last_activity_by_project in src/jira-audit.py lines 144 to 172. The
search argument models the POST to /search for the project key: an HTTPError
message, or a body whose optional string is the updated field of the most
recently updated issue when one exists. -/
def row_for (search : String → Except String (Option String)) (p : Project) :
    ActivityRow :=
  if p.archived then ⟨p.key, "", "archived"⟩
  else
    match search p.key with
    | .ok (some d) => ⟨p.key, d, ""⟩
    | .ok none => ⟨p.key, "", ""⟩
    | .error e => ⟨p.key, "", "search_error: " ++ e⟩

/-- Embeds the loop of collect_last_activity_by_project in src/jira-audit.py
lines 144 to 172: one row is appended for every project, archived projects
short-circuit with a note, an HTTPError from the search is caught and
recorded in the note column of that row alone, and the loop continues with
the remaining projects. -/
def collect_last_activity_by_project
    (search : String → Except String (Option String)) :
    List ActivityRow → List Project → List ActivityRow
  | acc, [] => acc
  | acc, p :: ps =>
    if p.archived then
      collect_last_activity_by_project search (acc ++ [⟨p.key, "", "archived"⟩]) ps
    else
      match search p.key with
      | .ok (some d) =>
        collect_last_activity_by_project search (acc ++ [⟨p.key, d, ""⟩]) ps
      | .ok none =>
        collect_last_activity_by_project search (acc ++ [⟨p.key, "", ""⟩]) ps
      | .error e =>
        collect_last_activity_by_project search
          (acc ++ [⟨p.key, "", "search_error: " ++ e⟩]) ps

/-- Embeds process_batch from src/confluence-pages.py lines 290 to 336. The
worker function is total because every exception inside it is caught by
get_page_restrictions and get_page_history; a worker returning none means
the page has no restriction and nothing is appended, some r is appended to
rows_out. Completion order is modelled as submission order, which the
counted outcome does not depend on. The second component is the kept
counter returned by the source. -/
def process_batch {alpha beta : Type} (worker : alpha → Option beta)
    (rows_out : List beta) : List alpha → List beta × Nat
  | [] => (rows_out, 0)
  | p :: ps =>
    match worker p with
    | some r =>
      ((process_batch worker (rows_out ++ [r]) ps).1,
       (process_batch worker (rows_out ++ [r]) ps).2 + 1)
    | none => process_batch worker rows_out ps

/-- A response of a Jira offset paginated endpoint as read by get_paged in
src/jira-audit.py lines 92 to 107: the values under the result key and the
optional total field (data.get with default 0 when the key is absent). -/
structure PagedResp (alpha : Type) where
  values : List alpha
  total : Option Nat

/-- Embeds get_paged from src/jira-audit.py lines 92 to 107: fetch at the
current startAt, yield every value, then stop when startAt plus maxResults
reaches the total reported by this response (0 when the key is absent),
else advance startAt by maxResults. The components are the yielded items,
the number of requests issued, and whether the loop exited normally. -/
def get_paged {alpha : Type} (fetch : Nat → PagedResp alpha) :
    Nat → Nat → Nat → List alpha × Nat × Bool
  | 0, _, _ => ([], 0, false)
  | n + 1, startAt, maxResults =>
    let d := fetch startAt
    if d.total.getD 0 ≤ startAt + maxResults then (d.values, 1, true)
    else
      ((get_paged fetch n (startAt + maxResults) maxResults).1 |> (d.values ++ ·),
       (get_paged fetch n (startAt + maxResults) maxResults).2.1 + 1,
       (get_paged fetch n (startAt + maxResults) maxResults).2.2)

/-- One entry of the emails list of a SCIM user record. -/
structure ScimEmail where
  value : String
deriving DecidableEq

/-- A SCIM user record as read by src/slack-deactivate.py: the optional id,
the userName, the emails list and the optional active flag. The empty
record used by the source when Resources is empty has id none, empty
userName and no emails. -/
structure ScimUser where
  id : Option String
  userName : String
  emails : List ScimEmail
  active : Option Bool
deriving DecidableEq

/-- The empty user dictionary the source falls back to when Resources is
missing or empty. -/
def emptyUser : ScimUser := ⟨none, "", [], none⟩

/-- A SCIM list response: totalResults and the Resources list. -/
structure ScimResp where
  totalResults : Nat
  resources : List ScimUser
deriving DecidableEq

/-- Whitespace code points removed by str.strip: space, tab, newline,
carriage return, vertical tab and form feed. -/
def isSpaceCode (n : Nat) : Bool :=
  n == 32 || n == 9 || n == 10 || n == 13 || n == 11 || n == 12

/-- The normalization applied by src/slack-deactivate.py lines 134 to 144
to every compared value, namely str(...).lower().strip(), embedded code
point wise over the ASCII range: upper case letters are shifted to lower
case, then leading and trailing whitespace is removed. -/
def normCodes (s : String) : List Nat :=
  let lowered := s.data.map
    (fun c => if 65 ≤ c.toNat ∧ c.toNat ≤ 90 then c.toNat + 32 else c.toNat)
  ((lowered.dropWhile isSpaceCode).reverse.dropWhile isSpaceCode).reverse

/-- Embeds user_matches_email_exact from src/slack-deactivate.py lines 134
to 144: the user matches when the normalized input email equals the
normalized userName or the normalized value of any entry of emails. -/
def user_matches_email_exact (u : ScimUser) (email : String) : Bool :=
  let target := normCodes email
  (normCodes u.userName == target) || u.emails.any (fun e => normCodes e.value == target)

/-- Embeds find_user_by_email_exact from src/slack-deactivate.py lines 178
to 221, returning the pair of the optional scim id and the note string. The
two arguments model the outcomes of the two SCIM queries: the fast path
filter on userName eq email, and the fallback filter on the local part;
none stands for a non-200 status or a non-dict body. The similar-candidates
reporting only affects the note and is omitted from the note detail. -/
def find_user_by_email_exact (fast fallback : Option ScimResp) (email : String) :
    Option String × String :=
  match fast with
  | none => (none, "lookup_failed")
  | some d =>
    if 0 < d.totalResults then
      let u := d.resources.headD emptyUser
      if user_matches_email_exact u email then (u.id, "found_exact")
      else (none, "no_exact_email_match")
    else
      match fallback with
      | none => (none, "fallback_failed")
      | some d2 =>
        match d2.resources.find? (fun u => user_matches_email_exact u email) with
        | some u => (u.id, "found_exact")
        | none => (none, "user_not_found")

/-- True when the first character list begins the second one. -/
def beginsWith : List Char → List Char → Bool
  | [], _ => true
  | _ :: _, [] => false
  | a :: as, b :: bs => (a == b) && beginsWith as bs

/-- True when the first character list occurs contiguously inside the
second one. -/
def occursInChars (n : List Char) : List Char → Bool
  | [] => beginsWith n []
  | h :: t => beginsWith n (h :: t) || occursInChars n t

/-- Substring membership with the semantics of the Python in operator on
strings: the empty needle occurs in every string. -/
def occursIn (needle hay : String) : Bool := occursInChars needle.data hay.data

/-- The tenant markers of src/atlassian-licenses.py lines 14 to 15. -/
def tenant1_tenant : String := "ftenant 1"

/-- The second tenant marker of src/atlassian-licenses.py. -/
def tenant2_tenant : String := "tenant2"

/-- Embeds the counting loop of src/atlassian-licenses.py lines 22 to 30
for one product column: for each row the three counters are incremented
according to whether the tenant markers occur in the license string of the
cell, the third counter only when both occur. -/
def license_loop : List String → Nat × Nat × Nat → Nat × Nat × Nat
  | [], acc => acc
  | s :: rest, (t1, t2, b) =>
    license_loop rest
      (if occursIn tenant1_tenant s then t1 + 1 else t1,
       if occursIn tenant2_tenant s then t2 + 1 else t2,
       if occursIn tenant1_tenant s && occursIn tenant2_tenant s then b + 1 else b)

/-- The three counters for one product after the counting loop, starting
from zero as the source initializes them. -/
def licenseCounts (cells : List String) : Nat × Nat × Nat :=
  license_loop cells (0, 0, 0)

theorem safe_get_loop_ok (fetch : Nat → FetchOutcome) :
    ∀ (n i k s : Nat) (ra : Option Nat) (lastExc : Option String) (waits : List Nat),
      i ≤ k → k < i + n →
      (∀ j, i ≤ j → j < k → transient (fetch j) = true) →
      fetch k = .resp s ra → ¬ s = 429 → s < 400 →
      (safe_get_loop fetch n i lastExc waits).1 = .ok k s := by
  intro n
  induction n with
  | zero =>
    intro i k s ra lastExc waits hik hkn htr hk h429 h400
    omega
  | succ n ih =>
    intro i k s ra lastExc waits hik hkn htr hk h429 h400
    by_cases heq : i = k
    · subst heq
      simp only [safe_get_loop, hk, if_neg h429,
        if_neg (show ¬ 500 ≤ s by omega), if_neg (show ¬ 400 ≤ s by omega)]
    · have hik2 : i < k := lt_of_le_of_ne hik heq
      have htri : transient (fetch i) = true := htr i le_rfl hik2
      cases hfi : fetch i with
      | resp s2 ra2 =>
        rw [hfi] at htri
        simp only [transient, Bool.or_eq_true, decide_eq_true_eq] at htri
        by_cases h4292 : s2 = 429
        · simp only [safe_get_loop, hfi, if_pos h4292]
          exact ih (i + 1) k s ra lastExc (waits ++ [max (ra2.getD 2) 2]) (by omega)
            (by omega) (fun j hj1 hj2 => htr j (by omega) hj2) hk h429 h400
        · have h5 : 500 ≤ s2 := by
            cases htri with
            | inl h => exact absurd h h4292
            | inr h => exact h
          simp only [safe_get_loop, hfi, if_neg h4292, if_pos h5]
          exact ih (i + 1) k s ra lastExc waits (by omega) (by omega)
            (fun j hj1 hj2 => htr j (by omega) hj2) hk h429 h400
      | netErr e =>
        simp only [safe_get_loop, hfi]
        exact ih (i + 1) k s ra (some e) waits (by omega) (by omega)
          (fun j hj1 hj2 => htr j (by omega) hj2) hk h429 h400

theorem safe_get_loop_exhaust (fetch : Nat → FetchOutcome) :
    ∀ (n i : Nat) (lastExc : Option String) (waits : List Nat),
      (∀ j, i ≤ j → j < i + n → transient (fetch j) = true) →
      exhausted (safe_get_loop fetch n i lastExc waits).1 = true := by
  intro n
  induction n with
  | zero =>
    intro i lastExc waits h
    cases lastExc <;> rfl
  | succ n ih =>
    intro i lastExc waits h
    have htri : transient (fetch i) = true := h i le_rfl (by omega)
    cases hfi : fetch i with
    | resp s2 ra2 =>
      rw [hfi] at htri
      simp only [transient, Bool.or_eq_true, decide_eq_true_eq] at htri
      by_cases h4292 : s2 = 429
      · simp only [safe_get_loop, hfi, if_pos h4292]
        exact ih (i + 1) lastExc (waits ++ [max (ra2.getD 2) 2])
          (fun j hj1 hj2 => h j (by omega) (by omega))
      · have h5 : 500 ≤ s2 := by
          cases htri with
          | inl hx => exact absurd hx h4292
          | inr hx => exact hx
        simp only [safe_get_loop, hfi, if_neg h4292, if_pos h5]
        exact ih (i + 1) lastExc waits (fun j hj1 hj2 => h j (by omega) (by omega))
    | netErr e =>
      simp only [safe_get_loop, hfi]
      exact ih (i + 1) (some e) waits (fun j hj1 hj2 => h j (by omega) (by omega))

theorem jira_get_429_forever :
    ∀ (n k : Nat), jira_get (fun _ => .resp 429 none) n k = (none, n) := by
  intro n
  induction n with
  | zero => intro k; rfl
  | succ n ih =>
    intro k
    simp [jira_get, ih]

theorem zendesk_retry_forever :
    ∀ (n k : Nat) (url : String) (acc : List Nat),
      zendesk_fetch_loop (fun _ _ => .reqErr) n k (some url) acc = (acc, false) := by
  intro n
  induction n with
  | zero => intro k url acc; rfl
  | succ n ih =>
    intro k url acc
    simp only [zendesk_fetch_loop]
    exact ih (k + 1) url acc

theorem zendesk_cursor_loop :
    ∀ (n k : Nat) (url : String) (acc : List Nat),
      zendesk_fetch_loop (fun _ u => .ok [] false (some u)) n k (some url) acc =
        (acc, false) := by
  intro n
  induction n with
  | zero => intro k url acc; rfl
  | succ n ih =>
    intro k url acc
    simp only [zendesk_fetch_loop, Bool.false_eq_true, if_false, List.append_nil]
    exact ih (k + 1) url acc

theorem iter_pages_v2_self_loop {alpha : Type} (fetch : Nat → PageV2 Nat alpha)
    (hself : ∀ x, (fetch x).next = some x) :
    ∀ (n c : Nat),
      (iter_pages_v2 fetch n (some c)).2.1 = List.replicate n c ∧
      (iter_pages_v2 fetch n (some c)).2.2 = false := by
  intro n
  induction n with
  | zero => intro c; exact ⟨rfl, rfl⟩
  | succ n ih =>
    intro c
    rw [iter_pages_v2_succ, hself c]
    exact ⟨by simp [List.replicate_succ, (ih c).1], (ih c).2⟩

theorem collect_last_activity_map (search : String → Except String (Option String)) :
    ∀ (ps : List Project) (acc : List ActivityRow),
      collect_last_activity_by_project search acc ps = acc ++ ps.map (row_for search) := by
  intro ps
  induction ps with
  | nil => intro acc; simp [collect_last_activity_by_project]
  | cons p rest ih =>
    intro acc
    cases hp : p.archived
    · cases hs : search p.key with
      | ok o =>
        cases o with
        | some d =>
          simp only [collect_last_activity_by_project, hp, Bool.false_eq_true,
            if_false, hs, List.map_cons]
          rw [ih]
          simp [row_for, hp, hs]
        | none =>
          simp only [collect_last_activity_by_project, hp, Bool.false_eq_true,
            if_false, hs, List.map_cons]
          rw [ih]
          simp [row_for, hp, hs]
      | error e =>
        simp only [collect_last_activity_by_project, hp, Bool.false_eq_true,
          if_false, hs, List.map_cons]
        rw [ih]
        simp [row_for, hp, hs]
    · simp only [collect_last_activity_by_project, hp, if_true, List.map_cons]
      rw [ih]
      simp [row_for, hp]

theorem process_batch_spec {alpha beta : Type} (worker : alpha → Option beta) :
    ∀ (ps : List alpha) (rows_out : List beta),
      process_batch worker rows_out ps =
        (rows_out ++ ps.filterMap worker, (ps.filterMap worker).length) := by
  intro ps
  induction ps with
  | nil => intro rows_out; simp [process_batch]
  | cons p rest ih =>
    intro rows_out
    cases hw : worker p with
    | some r =>
      simp only [process_batch, hw, List.filterMap_cons, ih]
      simp
    | none =>
      simp only [process_batch, hw, List.filterMap_cons, ih]

theorem license_loop_spec :
    ∀ (cells : List String) (t1 t2 b : Nat),
      license_loop cells (t1, t2, b) =
        (t1 + cells.countP (fun s => occursIn tenant1_tenant s),
         t2 + cells.countP (fun s => occursIn tenant2_tenant s),
         b + cells.countP
           (fun s => occursIn tenant1_tenant s && occursIn tenant2_tenant s)) := by
  intro cells
  induction cells with
  | nil => intro t1 t2 b; simp [license_loop]
  | cons s rest ih =>
    intro t1 t2 b
    simp only [license_loop, ih, List.countP_cons]
    cases h1 : occursIn tenant1_tenant s <;> cases h2 : occursIn tenant2_tenant s <;>
      simp [h1, h2] <;> omega

/-- Claim C1 is false of the code: with a fetch whose next cursor always
equals the cursor just consumed, iter_pages_v2 never stops and never signals
any loop condition; with fuel 5 it issues five requests, all with the
already-followed cursor 0, and the termination flag stays false. -/
theorem c1_counterexample :
    iter_pages_v2 loopFetch 5 (some 0) = ([], [0, 0, 0, 0, 0], false) := rfl

/-- Claim C1 (amended): the pagination loops keep no history of consumed
cursors and perform no loop detection. For any fetch whose next cursor
always repeats the cursor just consumed, iter_pages_v2 re-issues that cursor
on every one of its n iterations and never terminates normally, for every
fuel n; the zendesk ticket loop behaves the same on a response that repeats
its own url as next_page. Termination happens only when the next cursor is
null (or zendesk reports end_of_stream). -/
theorem c1_amended {alpha : Type} (fetch : Nat → PageV2 Nat alpha)
    (hself : ∀ x, (fetch x).next = some x) (n c : Nat)
    (k : Nat) (url : String) (acc : List Nat) :
    (iter_pages_v2 fetch n (some c)).2.1 = List.replicate n c ∧
    (iter_pages_v2 fetch n (some c)).2.2 = false ∧
    zendesk_fetch_loop (fun _ u => .ok [] false (some u)) n k (some url) acc =
      (acc, false) :=
  ⟨(iter_pages_v2_self_loop fetch hself n c).1,
   (iter_pages_v2_self_loop fetch hself n c).2,
   zendesk_cursor_loop n k url acc⟩

/-- Witness for c1_amended at the concrete self-looping fetch. -/
theorem c1_witness :
    (iter_pages_v2 loopFetch 3 (some 0)).2.1 = List.replicate 3 0 ∧
    (iter_pages_v2 loopFetch 3 (some 0)).2.2 = false ∧
    zendesk_fetch_loop (fun _ u => .ok [] false (some u)) 3 0 (some "start") [] =
      ([], false) :=
  c1_amended loopFetch (fun _ => rfl) 3 0 0 "start" []

/-- Claim C2 is false of the code at an item whose id is empty: the page is
part of the union of page items but build_page_index drops it, so the output
is not the deduplicated union of all page items. -/
theorem c2_counterexample :
    build_page_index [] [] [("S", "Sp", [(⟨"", "t", "c", "s"⟩ : PageItem)])] ≠
      spec_first_seen [] (rows_of [("S", "Sp", [(⟨"", "t", "c", "s"⟩ : PageItem)])]) := by
  decide

/-- Claim C2 (amended): for every finite sequence of pages whose next cursor
is eventually null, iter_pages_v2 terminates normally and yields exactly the
concatenation of all page items in order, and build_page_index returns
exactly the first-seen deduplication of the candidate rows whose key is
non-empty, in first-seen order; an item with a non-empty key appearing on
two pages is kept exactly once, at its first occurrence, while items with an
empty key are skipped. -/
theorem c2_amended (pages : List (List PageItem))
    (spaces : List (String × String × List PageItem)) :
    (iter_pages_v2 (pagesFetch pages) (pages.length + 1) (some 0)).1 = pages.flatten ∧
    (iter_pages_v2 (pagesFetch pages) (pages.length + 1) (some 0)).2.2 = true ∧
    build_page_index [] [] spaces =
      spec_first_seen [] ((rows_of spaces).filter (fun r => !(r.id == ""))) := by
  have h := iter_pages_v2_pagesFetch pages pages.length 0 (by omega)
  refine ⟨?_, ?_, ?_⟩
  · rw [h]
    simp
  · rw [h]
  · rw [build_page_index_eq_dedup_loop, dedup_loop_spec]
    simp

/-- Claim C3 is false of the code: the get helper of the Jira audit script
raises at once on a single 500 followed by a success, issuing exactly one
request instead of retrying the transient error, and on a server that
answers 429 on every attempt it is still retrying after 50 requests instead
of escalating within any bounded budget. -/
theorem c3_counterexample :
    jira_get (fun k => if k = 0 then .resp 500 none else .resp 200 none) 5 0 =
      (some (.httpError 500), 1) ∧
    jira_get (fun _ => .resp 429 none) 50 0 = (none, 50) :=
  ⟨rfl, rfl⟩

/-- Claim C3 (amended): safe_get of the Confluence script has the claimed
bounded behaviour, with a budget of MAX_RETRIES total attempts: transient
failures on every attempt before a successful attempt k within the budget
still produce the response of attempt k, a full budget of consecutive
transient failures raises, and a 429 wait honors a Retry-After of v by
sleeping max v 2 ≥ v. The get helper of the Jira audit script however
retries only 429 and does so without any bound (after any fuel n it has
issued n requests and not returned), and the zendesk loop retries any
request exception without bound, so neither escalates to a fatal error. -/
theorem c3_amended :
    (∀ (fetch : Nat → FetchOutcome) (attempts k s : Nat) (ra : Option Nat),
        1 ≤ k → k ≤ attempts →
        (∀ i, 1 ≤ i → i < k → transient (fetch i) = true) →
        fetch k = .resp s ra → ¬ s = 429 → s < 400 →
        (safe_get fetch attempts).1 = .ok k s) ∧
    (∀ (fetch : Nat → FetchOutcome) (attempts : Nat),
        (∀ i, 1 ≤ i → i ≤ attempts → transient (fetch i) = true) →
        exhausted (safe_get fetch attempts).1 = true) ∧
    (∀ (fetch : Nat → FetchOutcome) (n i : Nat) (le : Option String)
        (w : List Nat) (v : Nat),
        fetch i = .resp 429 (some v) →
        safe_get_loop fetch (n + 1) i le w =
          safe_get_loop fetch n (i + 1) le (w ++ [max v 2]) ∧ v ≤ max v 2) ∧
    (∀ n k, jira_get (fun _ => .resp 429 none) n k = (none, n)) ∧
    (∀ (n k : Nat) (url : String) (acc : List Nat),
        zendesk_fetch_loop (fun _ _ => .reqErr) n k (some url) acc = (acc, false)) := by
  refine ⟨?_, ?_, ?_, jira_get_429_forever, zendesk_retry_forever⟩
  · intro fetch attempts k s ra h1k hka htr hk h429 h400
    exact safe_get_loop_ok fetch attempts 1 k s ra none [] h1k (by omega) htr hk h429 h400
  · intro fetch attempts hall
    exact safe_get_loop_exhaust fetch attempts 1 none []
      (fun j hj1 hj2 => hall j hj1 (by omega))
  · intro fetch n i le w v hfi
    constructor
    · simp [safe_get_loop, hfi]
    · exact Nat.le_max_left v 2

/-- Witness for c3_amended: three timeouts then a 200 on attempt 4 within a
budget of 4 still succeeds; four consecutive timeouts exhaust the budget; a
429 with Retry-After 7 waits max 7 2; the Jira get helper is still retrying
a constant 429 after 5 attempts; the zendesk loop is still retrying a
constant request error after 5 attempts. -/
theorem c3_witness :
    (safe_get (fun i => if i < 4 then .netErr "timeout" else .resp 200 none) 4).1 =
      .ok 4 200 ∧
    exhausted (safe_get (fun _ => .netErr "timeout") 4).1 = true ∧
    (safe_get_loop (fun _ => .resp 429 (some 7)) 3 1 none [] =
      safe_get_loop (fun _ => .resp 429 (some 7)) 2 2 none [max 7 2] ∧ 7 ≤ max 7 2) ∧
    jira_get (fun _ => .resp 429 none) 5 0 = (none, 5) ∧
    zendesk_fetch_loop (fun _ _ => .reqErr) 5 0 (some "u") [] = ([], false) :=
  ⟨c3_amended.1 (fun i => if i < 4 then .netErr "timeout" else .resp 200 none)
      4 4 200 none (by decide) (by decide)
      (fun i h1 h2 => by simp [transient, h2])
      (by simp) (by decide) (by decide),
   c3_amended.2.1 (fun _ => .netErr "timeout") 4 (fun i h1 h2 => rfl),
   c3_amended.2.2.1 (fun _ => .resp 429 (some 7)) 2 1 none [] 7 rfl,
   c3_amended.2.2.2.1 5 0,
   c3_amended.2.2.2.2 5 0 "u" []⟩

/-- Claim C4 is false of the code: get_inactive_repos breaks out of its loop
on the first non-200 response and returns the accumulated list with no error
indication of any kind. A 500 on page 2 silently truncates the result to the
repositories of page 1, and a 403 on page 1 silently yields the empty list. -/
theorem c4_counterexample :
    get_inactive_repos
      (fun p => if p = 1 then (200, [(⟨"alpha", "2020-01-01"⟩ : Repo)])
        else if p = 2 then (500, [(⟨"beta", "2020-01-01"⟩ : Repo)])
        else (200, []))
      "2024-01-01" 10 1 [] = ([⟨"alpha", "2020-01-01"⟩], 2) ∧
    get_inactive_repos (fun _ => (403, [(⟨"alpha", "2020-01-01"⟩ : Repo)]))
      "2024-01-01" 10 1 [] = ([], 1) :=
  ⟨rfl, rfl⟩

/-- Claim C4 (amended): fetch_screen_tabs surfaces every HTTP error other
than 400 to its caller unchanged (400 is mapped to an empty tab list by
design, and success passes through); get_inactive_repos however stops at the
first response whose status is not 200 and silently returns the accumulated
list with no error indication. -/
theorem c4_amended :
    (∀ st : Nat, ¬ st = 400 → fetch_screen_tabs (.error st) = .error st) ∧
    (fetch_screen_tabs (.error 400) = .ok []) ∧
    (∀ tabs : List Nat, fetch_screen_tabs (.ok tabs) = .ok tabs) ∧
    (∀ (fetch : Nat → Nat × List Repo) (cutoff : String) (n page : Nat)
        (acc : List Repo), ¬ (fetch page).1 = 200 →
        get_inactive_repos fetch cutoff (n + 1) page acc = (acc, 1)) := by
  refine ⟨?_, rfl, fun tabs => rfl, ?_⟩
  · intro st h
    simp [fetch_screen_tabs, h]
  · intro fetch cutoff n page acc h
    simp only [get_inactive_repos]
    rw [if_pos (Or.inl h)]

/-- Witness for c4_amended: a 403 from the tabs endpoint is re-raised, a 400
maps to no tabs, success passes through, and a 403 page response makes
get_inactive_repos return its accumulator silently after one request. -/
theorem c4_witness :
    fetch_screen_tabs (.error 403) = .error 403 ∧
    fetch_screen_tabs (.error 400) = .ok [] ∧
    fetch_screen_tabs (.ok [9]) = .ok [9] ∧
    get_inactive_repos (fun _ => (403, [])) "2024-01-01" 3 1 [] = ([], 1) :=
  ⟨c4_amended.1 403 (by decide), c4_amended.2.1, c4_amended.2.2.1 [9],
   c4_amended.2.2.2 (fun _ => (403, [])) "2024-01-01" 2 1 [] (by decide)⟩

/-- Claim C5 is false of the code: the screens loop receives an empty values
list together with isLast false, which announces further pages, yet it stops
after a single request instead of continuing. -/
theorem c5_counterexample :
    fetch_all_screens
      (fun s => if s = 0 then (⟨[], some false⟩ : PageBean Nat) else ⟨[7], some true⟩)
      10 0 [] = ([], 1) := rfl

/-- Claim C5 (amended): iter_pages_v2 does keep fetching past an empty page
whose next cursor is non-null, but the Jira PageBean loops fetch_all_screens
and fetch_field_contexts stop on any empty values list even when isLast is
false; an isLast of true ends those loops normally after appending the last
values. -/
theorem c5_amended :
    (∀ (fetch : Nat → PageBean Nat) (n startAt : Nat) (acc : List Nat),
        (fetch startAt).values = [] →
        fetch_all_screens fetch (n + 1) startAt acc = (acc, 1)) ∧
    (∀ (fetch : Nat → PageBean Nat) (n startAt : Nat) (acc : List Nat),
        (fetch startAt).isLast = some true →
        fetch_all_screens fetch (n + 1) startAt acc = (acc ++ (fetch startAt).values, 1)) ∧
    (∀ (fetch : Nat → PageBean Nat) (n startAt : Nat) (acc : List Nat),
        (fetch startAt).values = [] →
        fetch_field_contexts fetch (n + 1) startAt acc = (acc, 1)) ∧
    iter_pages_v2 (pagesFetch [([] : List Nat), [5]]) 3 (some 0) = ([5], [0, 1], true) := by
  refine ⟨?_, ?_, ?_, rfl⟩
  · intro fetch n startAt acc h
    simp [fetch_all_screens, h]
  · intro fetch n startAt acc h
    simp [fetch_all_screens, h]
  · intro fetch n startAt acc h
    simp [fetch_field_contexts, fetch_all_screens, h]

/-- Witness for c5_amended: an empty page with isLast false stops the
screens loop at once; a page with isLast true ends it normally with its
values appended; the contexts loop stops on the empty page too. -/
theorem c5_witness :
    fetch_all_screens (fun _ => (⟨[], some false⟩ : PageBean Nat)) 3 0 [] = ([], 1) ∧
    fetch_all_screens (fun _ => (⟨[9], some true⟩ : PageBean Nat)) 3 0 [] =
      ([] ++ [9], 1) ∧
    fetch_field_contexts (fun _ => (⟨[], some false⟩ : PageBean Nat)) 3 0 [] = ([], 1) :=
  ⟨c5_amended.1 (fun _ => ⟨[], some false⟩) 2 0 [] rfl,
   c5_amended.2.1 (fun _ => ⟨[9], some true⟩) 2 0 [] rfl,
   c5_amended.2.2.1 (fun _ => ⟨[], some false⟩) 2 0 [] rfl⟩

/-- A source of one hundred pages, one wiki page record each, with four
distinct ids followed by ninety six repeats of the fourth. -/
def pagesC6 : List (List PageItem) :=
  [[⟨"a", "", "", ""⟩], [⟨"b", "", "", ""⟩], [⟨"c", "", "", ""⟩], [⟨"d", "", "", ""⟩]] ++
    List.replicate 96 [⟨"d", "", "", ""⟩]

/-- Claim C6 is false of the code: with MAX_PAGES 3 against a one hundred
page source, the enumeration issues one hundred list requests, not three;
the cap of three applies only to how many index entries are processed
afterwards. -/
theorem c6_counterexample :
    (main_capped 3 pagesC6).2 = 100 ∧ (main_capped 3 pagesC6).1.length = 3 ∧
      ¬ (100 = 3) :=
  ⟨rfl, rfl, by decide⟩

/-- Claim C6 (amended): MAX_PAGES does not bound the number of fetch calls.
The enumeration always fetches every page of the source (max of the page
count and one requests, independent of MAX_PAGES), and a positive MAX_PAGES
of m caps the index entries subsequently processed at the minimum of m and
the index size, while MAX_PAGES zero processes the whole index. -/
theorem c6_amended (m : Nat) (pages : List (List PageItem)) :
    (0 < m → (main_capped m pages).1.length = min m (main_capped 0 pages).1.length) ∧
    (main_capped 0 pages).1 = build_page_index [] [] [("S", "Space", pages.flatten)] ∧
    (main_capped m pages).2 = max pages.length 1 := by
  have hrun := iter_pages_v2_pagesFetch pages pages.length 0 (by omega)
  refine ⟨?_, ?_, ?_⟩
  · intro hm
    simp only [main_capped, capOf, if_pos hm, Nat.lt_irrefl, if_false]
    rw [List.take_length, List.length_take]
  · simp only [main_capped, capOf, Nat.lt_irrefl, if_false]
    rw [hrun]
    simp [List.take_length]
  · simp only [main_capped]
    rw [hrun]
    simp

/-- Witness for c6_amended at a one page source with cap two. -/
theorem c6_witness :
    (main_capped 2 [[(⟨"a", "", "", ""⟩ : PageItem)]]).1.length =
      min 2 (main_capped 0 [[(⟨"a", "", "", ""⟩ : PageItem)]]).1.length ∧
    (main_capped 0 [[(⟨"a", "", "", ""⟩ : PageItem)]]).1 =
      build_page_index [] [] [("S", "Space", [[(⟨"a", "", "", ""⟩ : PageItem)]].flatten)] ∧
    (main_capped 2 [[(⟨"a", "", "", ""⟩ : PageItem)]]).2 =
      max [[(⟨"a", "", "", ""⟩ : PageItem)]].length 1 :=
  ⟨(c6_amended 2 [[⟨"a", "", "", ""⟩]]).1 (by decide),
   (c6_amended 2 [[⟨"a", "", "", ""⟩]]).2.1,
   (c6_amended 2 [[⟨"a", "", "", ""⟩]]).2.2⟩

/-- The fan-out scenario of the claim: ten projects, none archived. -/
def tenProjects : List Project :=
  [⟨"P1", false⟩, ⟨"P2", false⟩, ⟨"P3", false⟩, ⟨"P4", false⟩, ⟨"P5", false⟩,
   ⟨"P6", false⟩, ⟨"P7", false⟩, ⟨"P8", false⟩, ⟨"P9", false⟩, ⟨"P10", false⟩]

/-- A search that raises an HTTPError for project P5 and succeeds for every
other project. -/
def searchFail5 : String → Except String (Option String) :=
  fun k => if k = "P5" then .error "HTTP 410 Gone"
    else .ok (some "2024-01-01T00:00:00.000+0000")

/-- Claim C7: the fan-out records exactly one outcome per input item. The
collector of the Jira audit appends exactly one row per project, equal to a
per-project outcome function, so an error recorded for one project never
aborts or alters the rows of the others; process_batch of the Confluence
script consumes every submitted item and appends exactly the worker results
that are present; and in the ten project scenario where the transform of P5
raises, the run yields nine success rows and one recorded failure row. -/
theorem c7_confirmed {alpha beta : Type}
    (search : String → Except String (Option String)) (projects : List Project)
    (worker : alpha → Option beta) (rows_out : List beta) (batch : List alpha) :
    collect_last_activity_by_project search [] projects =
      projects.map (row_for search) ∧
    (collect_last_activity_by_project search [] projects).length = projects.length ∧
    process_batch worker rows_out batch =
      (rows_out ++ batch.filterMap worker, (batch.filterMap worker).length) ∧
    (collect_last_activity_by_project searchFail5 [] tenProjects).length = 10 ∧
    (collect_last_activity_by_project searchFail5 [] tenProjects).countP
      (fun r => r.note == "") = 9 ∧
    (collect_last_activity_by_project searchFail5 [] tenProjects).countP
      (fun r => !(r.note == "")) = 1 := by
  refine ⟨?_, ?_, process_batch_spec worker batch rows_out, by decide, by decide, by decide⟩
  · simpa using collect_last_activity_map search projects []
  · rw [collect_last_activity_map search projects []]
    simp

/-- Claim C8: when the first response of get_paged lacks a total key (so the
default 0 applies) or reports total 0, the termination test holds at once
and the generator yields exactly the first page of values after a single
request, for any remaining fuel. -/
theorem c8_confirmed {alpha : Type} (fetch : Nat → PagedResp alpha) (n : Nat)
    (h : (fetch 0).total.getD 0 = 0) :
    get_paged fetch (n + 1) 0 100 = ((fetch 0).values, 1, true) := by
  simp only [get_paged]
  rw [if_pos (by rw [h]; omega)]

/-- Witness for c8_confirmed at a fetch with no total key and two values. -/
theorem c8_witness :
    get_paged (fun _ => (⟨[3, 4], none⟩ : PagedResp Nat)) 5 0 100 = ([3, 4], 1, true) :=
  c8_confirmed (fun _ => ⟨[3, 4], none⟩) 4 rfl

/-- Claim C9: whenever find_user_by_email_exact returns a non-null scim id,
that id is the id field of a user record satisfying
user_matches_email_exact for the input email, and that record came either
from the head of the fast path response or from the fallback resources; no
id is ever returned for a merely similar match. -/
theorem c9_confirmed (fast fallback : Option ScimResp) (email uid : String)
    (h : (find_user_by_email_exact fast fallback email).1 = some uid) :
    ∃ u : ScimUser, user_matches_email_exact u email = true ∧ u.id = some uid ∧
      ((∃ d, fast = some d ∧ u = d.resources.headD emptyUser) ∨
       (∃ d2, fallback = some d2 ∧ u ∈ d2.resources)) := by
  cases fast with
  | none => simp [find_user_by_email_exact] at h
  | some d =>
    by_cases ht : 0 < d.totalResults
    · by_cases hm : user_matches_email_exact (d.resources.headD emptyUser) email = true
      · simp only [find_user_by_email_exact, if_pos ht, if_pos hm] at h
        exact ⟨d.resources.headD emptyUser, hm, h, Or.inl ⟨d, rfl, rfl⟩⟩
      · simp only [find_user_by_email_exact, if_pos ht, if_neg hm] at h
        simp at h
    · cases fallback with
      | none => simp [find_user_by_email_exact, ht] at h
      | some d2 =>
        cases hf : d2.resources.find? (fun u => user_matches_email_exact u email) with
        | none => simp [find_user_by_email_exact, ht, hf] at h
        | some u =>
          simp only [find_user_by_email_exact, if_neg ht, hf] at h
          have hp := List.find?_some hf
          have hmem := List.mem_of_find?_eq_some hf
          exact ⟨u, hp, h, Or.inr ⟨d2, rfl, hmem⟩⟩

/-- A SCIM user with a mixed case userName equal to the looked up email. -/
def user1 : ScimUser :=
  ⟨some "U123", "Alice@Example.com", [⟨"alice@corp.example"⟩], some true⟩

/-- Witness for c9_confirmed at a fast path response holding user1. -/
theorem c9_witness :
    ∃ u : ScimUser, user_matches_email_exact u "alice@example.com" = true ∧
      u.id = some "U123" ∧
      ((∃ d, (some (⟨1, [user1]⟩ : ScimResp) : Option ScimResp) = some d ∧
        u = d.resources.headD emptyUser) ∨
       (∃ d2, (none : Option ScimResp) = some d2 ∧ u ∈ d2.resources)) :=
  c9_confirmed (some ⟨1, [user1]⟩) none "alice@example.com" "U123" (by decide)

/-- Claim C10: after the counting loop the three counters are the counts of
the rows containing the first marker, the second marker, and both markers
respectively, the both counter is at most the minimum of the two tenant
counters, and the migration count, tenant1 minus both computed over the
integers, is non-negative. -/
theorem c10_confirmed (cells : List String) :
    licenseCounts cells =
      (cells.countP (fun s => occursIn tenant1_tenant s),
       cells.countP (fun s => occursIn tenant2_tenant s),
       cells.countP (fun s => occursIn tenant1_tenant s && occursIn tenant2_tenant s)) ∧
    (licenseCounts cells).2.2 ≤
      min (licenseCounts cells).1 (licenseCounts cells).2.1 ∧
    0 ≤ ((licenseCounts cells).1 : Int) - ((licenseCounts cells).2.2 : Int) := by
  have heq := license_loop_spec cells 0 0 0
  simp only [Nat.zero_add] at heq
  have h1 : cells.countP
      (fun s => occursIn tenant1_tenant s && occursIn tenant2_tenant s) ≤
      cells.countP (fun s => occursIn tenant1_tenant s) :=
    List.countP_mono_left (fun x _ hb => by
      simp only [Bool.and_eq_true] at hb
      exact hb.1)
  have h2 : cells.countP
      (fun s => occursIn tenant1_tenant s && occursIn tenant2_tenant s) ≤
      cells.countP (fun s => occursIn tenant2_tenant s) :=
    List.countP_mono_left (fun x _ hb => by
      simp only [Bool.and_eq_true] at hb
      exact hb.2)
  refine ⟨heq, ?_, ?_⟩
  · rw [show licenseCounts cells = license_loop cells (0, 0, 0) from rfl, heq]
    exact le_min h1 h2
  · rw [show licenseCounts cells = license_loop cells (0, 0, 0) from rfl, heq]
    simp only []
    omega
